import Mathlib

set_option autoImplicit false

/-!
Verification of the common-fate/ops repository: a shallow embedding of the
service registry / dispatcher (handler.go), the servicedef document model
(servicedef/servicedef.go), the tunnel dial-and-serve retry loop
(tunnel package, built on the k8s.io exponential-backoff helper), and the
generated ResponseCode stringer (protocol package).

Machine-level Go details (reflection, maps, pointers, goroutines) are
embedded as explicit data: reflected method sets become lists of method
descriptors, Go maps become association lists, the package-level mutable
TLS default becomes explicit state threading, and the retry loop's
interaction with the ambient context becomes a schedule of dial outcomes
plus an optional cancellation instant observed at the loop's own
observation points.
-/

/-! ## JSON values and Go values

The dispatcher passes `json.RawMessage` bodies around and marshals Go
values with `encoding/json`.  The fragment of JSON exercised by the
dispatcher's call path is embedded as `JValue`; Go runtime values produced
and consumed by bound methods are embedded as `GoVal` (strings and flat
structs of string fields, which covers every service in the repository).
-/

inductive JValue where
  | str (s : String)
  | obj (fields : List (String × JValue))

inductive GoVal where
  | str (s : String)
  | strukt (name : String) (fields : List (String × String))
deriving DecidableEq

-- Escape a character the way encoding/json renders the strings appearing
-- in this development (quote and backslash; no control characters occur).
def escapeChar (c : Char) : String :=
  if c.toNat = 34 then "\\\"" else if c.toNat = 92 then "\\\\" else String.singleton c

def quoteJson (s : String) : String :=
  "\"" ++ String.join (s.toList.map escapeChar) ++ "\""

-- json.Marshal of the Go values produced by bound methods.  Struct fields
-- are stored under their JSON keys, so marshalling renders them directly.
def marshalString : GoVal → String
  | GoVal.str s => quoteJson s
  | GoVal.strukt _ fs =>
      "\x7b" ++ String.intercalate "," (fs.map (fun p => quoteJson p.1 ++ ":" ++ quoteJson p.2)) ++ "\x7d"

-- Association-list lookup, embedding Go map indexing (`m[k]`).
def assocFind {α : Type} (l : List (String × α)) (k : String) : Option α :=
  (l.find? (fun p => p.1 == k)).map Prod.snd

-- Read a string-typed struct field during json.Unmarshal: a missing key
-- leaves the zero value "", a non-string value is an unmarshal error.
def strField (fs : List (String × JValue)) (k : String) : Option String :=
  match assocFind fs k with
  | none => some ""
  | some (JValue.str s) => some s
  | some _ => none

/-! ## Reflected method sets

A Go type, as the dispatcher sees it through reflect: a name (used in the
`%T` error format) and the `json.Unmarshal` semantics of decoding a raw
message into a freshly allocated value of the type.
-/

structure GoType where
  name : String
  unmarshal : JValue → Option GoVal

inductive ParamType where
  | ctx
  | other (t : GoType)

def paramGoType : ParamType → GoType
  | ParamType.ctx => { name := "context.Context", unmarshal := fun _ => none }
  | ParamType.other t => t

-- One exported method of a registered service object: its name, its
-- parameter list after the receiver, and the semantics of invoking it on
-- the (optional) decoded input value.
structure GoMethod where
  name : String
  params : List ParamType
  run : Option GoVal → GoVal

structure OperationMetadata where
  description : String

structure ServiceMetadata where
  id : String
  displayName : String
  description : String
  operationMetadata : List (String × OperationMetadata)

-- A registered service object as reflect presents it to Build: the
-- underlying type name, whether it was registered behind a pointer, the
-- optional ServiceWithMetadata capability, and the exported method set in
-- reflection order.
structure GoService where
  typeName : String
  isPointer : Bool
  metadata : Option ServiceMetadata
  methods : List GoMethod

structure Registry where
  services : List GoService

/-! ## servicedef document model (servicedef/servicedef.go) -/

structure Operation where
  id : String
  description : String
  hasRequestBody : Bool
deriving DecidableEq

structure Service where
  id : String
  name : String
  description : String
  operations : List Operation
deriving DecidableEq

structure Definitions where
  services : List Service
deriving DecidableEq

/-! ## Handler (routing table plus definitions) -/

structure function where
  inputType : Option GoType
  run : Option GoVal → GoVal

structure Handler where
  routes : List (String × List (String × function))
  defs : Definitions

/-! ## extractMethods (handler.go)

The source walks the method's func type from index 1 (skipping the
receiver): a non-context first argument is an error, a second argument
becomes the input schema/type; further arguments are never reached.
-/

structure ExtractResult where
  inputType : Option GoType

def extractMethods (params : List ParamType) : ExtractResult × Option String :=
  match params with
  | [] => ({ inputType := none }, none)
  | ParamType.ctx :: [] => ({ inputType := none }, none)
  | ParamType.ctx :: q :: _ => ({ inputType := some (paramGoType q) }, none)
  | ParamType.other t :: _ =>
      ({ inputType := none }, some ("first arg was not context.Context, got *" ++ t.name))

-- slog.Error("error extracting method", "error", err) as a log line.
def errLog : Option String → List String
  | none => []
  | some e => ["error extracting method: " ++ e]

/-! ## Build (handler.go) -/

def defaultMeta : ServiceMetadata :=
  { id := "", displayName := "", description := "", operationMetadata := [] }

def metaOf (svc : GoService) : ServiceMetadata :=
  svc.metadata.getD defaultMeta

def sdefBase (svc : GoService) : Service :=
  match svc.metadata with
  | none => { id := svc.typeName, name := "", description := "", operations := [] }
  | some m => { id := m.id, name := m.displayName, description := m.description, operations := [] }

def resolveID (svc : GoService) : String :=
  (sdefBase svc).id

def dupIdError (id : String) : String :=
  "a service with ID " ++ id ++
    " has already been registered, please rename the service or remove the second registration (you can update the ID by setting it in Metadata())"

def notPointerError (typeName : String) : String :=
  "received a struct that was not a pointer for " ++ typeName ++
    ": ensure that you call Register() with the address of the struct, e.g. Register(&MyService\x7b\x7d)"

-- The per-method loop body of Build: skip the method named "Metadata",
-- otherwise record a route entry and a definitions Operation; an
-- extraction error is logged (twice: once by Build's own extractMethods
-- call, once by the one inside parseMethod) and the method is still bound.
def processMethods (meta : ServiceMetadata) : List GoMethod →
    List (String × function) × List Operation × List String
  | [] => ([], [], [])
  | m :: rest =>
      let prev := processMethods meta rest
      if m.name = "Metadata" then prev
      else
        let extract := (extractMethods m.params).1
        let errOpt := (extractMethods m.params).2
        let op : Operation :=
          { id := m.name,
            description := ((assocFind meta.operationMetadata m.name).getD ⟨""⟩).description,
            hasRequestBody := extract.inputType.isSome }
        ((m.name, { inputType := extract.inputType, run := m.run }) :: prev.1,
         op :: prev.2.1,
         errLog errOpt ++ errLog errOpt ++ prev.2.2)

def buildService (h : Handler) (logs : List String) (svc : GoService) :
    Except String (Handler × List String) :=
  if svc.isPointer = false then
    Except.error (notPointerError svc.typeName)
  else if (assocFind h.routes (resolveID svc)).isSome then
    Except.error (dupIdError (resolveID svc))
  else
    let pm := processMethods (metaOf svc) svc.methods
    Except.ok
      ({ routes := h.routes ++ [(resolveID svc, pm.1)],
         defs := { services := h.defs.services ++ [{ sdefBase svc with operations := pm.2.1 }] } },
       logs ++ pm.2.2)

def buildAux : Handler → List String → List GoService → Except String (Handler × List String)
  | h, logs, [] => Except.ok (h, logs)
  | h, logs, svc :: rest =>
      match buildService h logs svc with
      | Except.error e => Except.error e
      | Except.ok (h2, logs2) => buildAux h2 logs2 rest

def Registry.Build (r : Registry) : Except String (Handler × List String) :=
  buildAux { routes := [], defs := { services := [] } } [] r.services

/-! ## Call (handler.go) -/

def Call (h : Handler) (service : String) (operation : String) (input : JValue) :
    Except String String :=
  match assocFind h.routes service with
  | none => Except.error ("service " ++ service ++ " not found")
  | some svcroutes =>
      match assocFind svcroutes operation with
      | none => Except.error ("operation " ++ operation ++ " not found for service " ++ service)
      | some f =>
          match f.inputType with
          | none => Except.ok (marshalString (f.run none))
          | some t =>
              match t.unmarshal input with
              | none => Except.error "error unmarshalling input"
              | some v => Except.ok (marshalString (f.run (some v)))

/-! ## Observation helpers on built handlers -/

def routePairs (h : Handler) : List (String × String) :=
  h.routes.flatMap (fun p => p.2.map (fun q => (p.1, q.1)))

def defPairs (h : Handler) : List (String × String) :=
  h.defs.services.flatMap (fun s => s.operations.map (fun o => (s.id, o.id)))

def buildOk (r : Registry) : Bool :=
  match r.Build with
  | Except.ok _ => true
  | Except.error _ => false

def buildRoutePairs (r : Registry) : List (String × String) :=
  match r.Build with
  | Except.ok (h, _) => routePairs h
  | Except.error _ => []

def buildDefPairs (r : Registry) : List (String × String) :=
  match r.Build with
  | Except.ok (h, _) => defPairs h
  | Except.error _ => []

def buildLogs (r : Registry) : List String :=
  match r.Build with
  | Except.ok (_, logs) => logs
  | Except.error _ => []

def buildCall (r : Registry) (service operation : String) (input : JValue) :
    Except String String :=
  match r.Build with
  | Except.error e => Except.error e
  | Except.ok (h, _) => Call h service operation input

/-! ## Concrete services from the repository's tests -/

def fooInputType : GoType :=
  { name := "ops.fooInput",
    unmarshal := fun j =>
      match j with
      | JValue.obj fs =>
          match strField fs "bar", strField fs "other" with
          | some b, some o => some (GoVal.strukt "fooInput" [("Bar", b), ("Other", o)])
          | _, _ => none
      | _ => none }

def structBar (v : Option GoVal) : String :=
  match v with
  | some (GoVal.strukt _ fs) => (assocFind fs "Bar").getD ""
  | _ => ""

def fooMethod : GoMethod :=
  { name := "Foo", params := [ParamType.ctx, ParamType.other fooInputType],
    run := fun v => GoVal.str ("hello " ++ structBar v) }

def barMethod : GoMethod :=
  { name := "Bar", params := [ParamType.ctx, ParamType.other fooInputType],
    run := fun v => GoVal.str ("hello " ++ structBar v) }

def metadataMethod : GoMethod :=
  { name := "Metadata", params := [], run := fun _ => GoVal.str "" }

def exampleService : GoService :=
  { typeName := "example", isPointer := true,
    metadata := some
      { id := "example", displayName := "Example", description := "My Example service",
        operationMetadata := [("Foo", { description := "does foo" })] },
    methods := [barMethod, fooMethod, metadataMethod] }

def exampleRegistry : Registry := { services := [exampleService] }

-- A service whose only exported method lacks a context first parameter.
def intType : GoType := { name := "int", unmarshal := fun _ => none }

def badMethod : GoMethod :=
  { name := "BadOp", params := [ParamType.other intType], run := fun _ => GoVal.str "x" }

def badService : GoService :=
  { typeName := "bad", isPointer := true, metadata := none, methods := [badMethod] }

def rBad : Registry := { services := [badService] }

-- Two method-less services that resolve to the same Metadata ID.
def emptyMeta (i : String) : ServiceMetadata :=
  { id := i, displayName := "", description := "", operationMetadata := [] }

def dupA : GoService :=
  { typeName := "alpha", isPointer := true, metadata := some (emptyMeta "same"), methods := [] }

def dupB : GoService :=
  { typeName := "beta", isPointer := true, metadata := some (emptyMeta "same"), methods := [] }

/-! ## Tunnel dial-and-serve retry loop (tunnel package)

`DialAndServe` wraps each `dialAndServe` attempt in the k8s.io
`wait.ExponentialBackoffWithContext` driver, configured by
`DefaultBackoff`.  The embedding abstracts real time and I/O into a
schedule: `dial i` is the outcome of the i-th attempt (`none` = success),
and `cancelAt` is the instant at which the ambient context becomes done.
One iteration has three instants: the loop's pre-attempt context check at
`3*i`, the attempt itself at `3*i+1`, and the backoff wait at `3*i+2`;
the context is observed only at the pre-check and during the wait,
exactly as in the driver's code.
-/

inductive GoErr where
  | canceled
  | deadlineExceeded
  | waitTimeout
  | other (msg : String)
deriving DecidableEq

-- errors.Is(err, context.Canceled)
def isCanceled : GoErr → Bool
  | GoErr.canceled => true
  | _ => false

-- wait.Interrupted: true for ErrWaitTimeout, context.Canceled and
-- context.DeadlineExceeded.
def interrupted : GoErr → Bool
  | GoErr.canceled => true
  | GoErr.deadlineExceeded => true
  | GoErr.waitTimeout => true
  | GoErr.other _ => false

structure Backoff where
  steps : Nat
  durationMs : Nat
  factor : Rat
  jitter : Rat

def DefaultBackoff : Backoff :=
  { steps := 5, durationMs := 100, factor := 2, jitter := 1/10 }

structure Sched where
  cancelAt : Option Nat
  dial : Nat → Option GoErr

def ctxDone (s : Sched) (t : Nat) : Bool :=
  match s.cancelAt with
  | none => false
  | some c => decide (c ≤ t)

-- wait.ExponentialBackoffWithContext specialised to the condition closure
-- inside DialAndServe: a failed attempt stores the error as lastErr and
-- reports no progress (also when the error is a cancellation), a
-- successful attempt ends the loop.  Returns (loop result, lastErr,
-- number of dial attempts performed); `none` as loop result is a nil
-- error.  The final iteration (Steps == 1) breaks out without a wait.
def expBackoffWithContext (s : Sched) :
    Nat → Nat → Option GoErr → Option GoErr × Option GoErr × Nat
  | 0, i, last => (some GoErr.waitTimeout, last, i)
  | steps + 1, i, last =>
      if ctxDone s (3 * i) then (some GoErr.canceled, last, i)
      else
        match s.dial i with
        | none => (none, last, i + 1)
        | some e =>
            if steps = 0 then (some GoErr.waitTimeout, some e, i + 1)
            else if ctxDone s (3 * i + 2) then (some GoErr.canceled, some e, i + 1)
            else expBackoffWithContext s steps (i + 1) (some e)

def DialAndServeRun (s : Sched) : Option GoErr × Option GoErr × Nat :=
  expBackoffWithContext s DefaultBackoff.steps 0 none

-- Tunnel.DialAndServe's tail: when the loop result is interrupted (budget
-- exhausted or deadline) and is not a cancellation, substitute the last
-- observed dial error.
def DialAndServe (s : Sched) : Option GoErr :=
  match DialAndServeRun s with
  | (none, _, _) => none
  | (some e, last, _) => if !isCanceled e && interrupted e then last else some e

def dialAttempts (s : Sched) : Nat :=
  (DialAndServeRun s).2.2

def isCanceledOpt : Option GoErr → Bool
  | some e => isCanceled e
  | none => false

-- A schedule on which every dial attempt fails with the same error and
-- the context is never cancelled.
def schedAllFail (e : GoErr) : Sched :=
  { cancelAt := none, dial := fun _ => some e }

-- A schedule on which every dial attempt fails and the context is
-- cancelled at instant 13: during the fifth attempt, after the loop's
-- final pre-attempt check (instant 12), with no backoff wait remaining.
def schedLateCancel : Sched :=
  { cancelAt := some 13, dial := fun _ => some (GoErr.other "connection refused") }

/-! ## TLS configuration resolution (tunnel package)

`getTLSConfig` resolves the effective *tls.Config.  When the Tunnel has
no override it uses the package-level DefaultTLSConfig pointer, and when
the effective config's ServerName is empty it assigns the hostname parsed
from the dial address through that pointer.  The package-level mutable
cell is embedded by explicit state threading: the function takes the
current DefaultTLSConfig value and returns (result, updated value).
-/

structure TLSConfig where
  nextProtos : List String
  serverName : String
deriving DecidableEq

-- protocol.Name, the ALPN protocol identifier carried in NextProtos (its
-- concrete value lives in the protocol package and does not matter here).
def protocolName : String := "lightwave"

def DefaultTLSConfig : TLSConfig :=
  { nextProtos := [protocolName], serverName := "" }

-- Drop everything up to and including the first "://" occurrence.
def dropScheme : List Char → Option (List Char)
  | [] => none
  | ':' :: '/' :: '/' :: rest => some rest
  | _ :: rest => dropScheme rest

-- url.Parse(addr).Hostname() for the address shapes the tunnel dials:
-- scheme://host[:port][/path] yields the host; an address with no
-- scheme part parses with an empty host.
def urlHostname (addr : String) : String :=
  match dropScheme addr.toList with
  | none => ""
  | some rest => (rest.takeWhile (fun c => !(c == '/') && !(c == ':'))).asString

def getTLSConfig (override : Option TLSConfig) (defaultCfg : TLSConfig) (addr : String) :
    TLSConfig × TLSConfig :=
  match override with
  | some c =>
      if c.serverName = "" then ({ c with serverName := urlHostname addr }, defaultCfg)
      else (c, defaultCfg)
  | none =>
      if defaultCfg.serverName = "" then
        let c := { defaultCfg with serverName := urlHostname addr }
        (c, c)
      else (defaultCfg, defaultCfg)

/-! ## ResponseCode stringer (protocol package)

The generated stringer file pins the ordinals CodeOK=0 .. CodeServerError=4
via its compile-time index assertion and renders any ordinal at or past
the end of the index table as a tagged string.
-/

def CodeOK : Nat := 0
def CodeBadRequest : Nat := 1
def CodeNotFound : Nat := 2
def CodeUnauthorized : Nat := 3
def CodeServerError : Nat := 4

def ResponseCodeName : String :=
  "CodeOKCodeBadRequestCodeNotFoundCodeUnauthorizedCodeServerError"

def ResponseCodeIndex : List Nat := [0, 6, 20, 32, 48, 63]

def ResponseCodeString (i : Nat) : String :=
  if ResponseCodeIndex.length - 1 ≤ i then
    "ResponseCode(" ++ toString i ++ ")"
  else
    (((ResponseCodeName.toList).drop (ResponseCodeIndex.getD i 0)).take
      (ResponseCodeIndex.getD (i + 1) 0 - ResponseCodeIndex.getD i 0)).asString

/-! ## Helper lemmas -/

lemma expBackoff_allFail (s : Sched) (e : GoErr) (hc : s.cancelAt = none)
    (hd : ∀ i, s.dial i = some e) :
    ∀ n i last, expBackoffWithContext s (n + 1) i last =
      (some GoErr.waitTimeout, some e, i + (n + 1)) := by
  intro n
  induction n with
  | zero =>
      intro i last
      simp [expBackoffWithContext, ctxDone, hc, hd i]
  | succ k ih =>
      intro i last
      have h1 : expBackoffWithContext s (k + 1 + 1) i last =
          expBackoffWithContext s (k + 1) (i + 1) (some e) := by
        rw [expBackoffWithContext, hd i]
        simp [ctxDone, hc]
      rw [h1, ih]
      simp only [Prod.mk.injEq, true_and]
      omega


/-! ## Claim theorems -/

/-- C3: for a dial function that fails on every attempt with the same
non-cancellation error and an ambient context that is never cancelled,
Tunnel.DialAndServe performs exactly the 5 attempts of DefaultBackoff and
then returns that same last observed error, not a generic retries
exhausted error. -/
theorem dialAndServe_exhausts_backoff_returns_last_error (e : GoErr) (s : Sched)
    (_he : isCanceled e = false) (hc : s.cancelAt = none) (hd : ∀ i, s.dial i = some e) :
    DialAndServe s = some e ∧ dialAttempts s = DefaultBackoff.steps ∧ DefaultBackoff.steps = 5 := by
  have h5 : expBackoffWithContext s 5 0 none = (some GoErr.waitTimeout, some e, 5) := by
    simpa using expBackoff_allFail s e hc hd 4 0 none
  refine ⟨?_, ?_, rfl⟩
  · simp [DialAndServe, DialAndServeRun, DefaultBackoff, h5, isCanceled, interrupted]
  · simp [dialAttempts, DialAndServeRun, DefaultBackoff, h5]

/-- C3 witness: the concrete always-failing schedule with error
"connection refused" exhausts the 5 attempts and returns that error. -/
theorem dialAndServe_exhausts_backoff_witness :
    DialAndServe (schedAllFail (GoErr.other "connection refused")) =
      some (GoErr.other "connection refused") ∧
    dialAttempts (schedAllFail (GoErr.other "connection refused")) = DefaultBackoff.steps ∧
    DefaultBackoff.steps = 5 :=
  dialAndServe_exhausts_backoff_returns_last_error (GoErr.other "connection refused")
    (schedAllFail (GoErr.other "connection refused")) rfl rfl (fun _ => rfl)

/-- C4 counterexample: cancellation does NOT take precedence in every
interleaving.  On schedLateCancel the context is cancelled (at instant 13,
during the fifth attempt, after the loop's final pre-attempt check) and
every dial attempt fails, yet DialAndServe returns the last dial error,
which is not cancellation-flavored. -/
theorem dialAndServe_cancellation_precedence_refuted :
    ¬ (∀ s : Sched, s.cancelAt.isSome = true → (∀ i, (s.dial i).isSome = true) →
        isCanceledOpt (DialAndServe s) = true) := by
  intro h
  have hres := h schedLateCancel rfl (fun _ => rfl)
  have hval : DialAndServe schedLateCancel = some (GoErr.other "connection refused") := by decide
  rw [hval] at hres
  exact absurd hres (by decide)

/-- C4 amended: if every dial attempt fails and the ambient context is
cancelled no later than the final pre-attempt check of the backoff loop
(instant 12, i.e. observed at some pre-attempt check or during a backoff
wait), DialAndServe returns the context cancellation error rather than the
last dial error; only a cancellation arriving after the final pre-attempt
check leaves the last dial error as the result. -/
theorem dialAndServe_cancellation_precedence (s : Sched) (c : Nat)
    (hcan : s.cancelAt = some c) (hle : c ≤ 12) (hd : ∀ i, (s.dial i).isSome = true) :
    DialAndServe s = some GoErr.canceled := by
  obtain ⟨e0, h0⟩ := Option.isSome_iff_exists.mp (hd 0)
  obtain ⟨e1, h1⟩ := Option.isSome_iff_exists.mp (hd 1)
  obtain ⟨e2, h2⟩ := Option.isSome_iff_exists.mp (hd 2)
  obtain ⟨e3, h3⟩ := Option.isSome_iff_exists.mp (hd 3)
  obtain ⟨e4, h4⟩ := Option.isSome_iff_exists.mp (hd 4)
  interval_cases c <;>
    simp [DialAndServe, DialAndServeRun, DefaultBackoff, expBackoffWithContext, ctxDone,
      hcan, h0, h1, h2, h3, h4, isCanceled, interrupted]

/-- C4 witness: a schedule cancelled at instant 5 (during the second
backoff wait) with every dial attempt failing returns the cancellation
error. -/
theorem dialAndServe_cancellation_precedence_witness :
    DialAndServe { cancelAt := some 5, dial := fun _ => some (GoErr.other "boom") } =
      some GoErr.canceled :=
  dialAndServe_cancellation_precedence
    { cancelAt := some 5, dial := fun _ => some (GoErr.other "boom") } 5 rfl (by decide)
    (fun _ => rfl)

/-- C6: registering two services that resolve to the same Service ID
(whether from Metadata() or the default type-name derivation) makes Build
return an error whose message names the duplicated ID, and no Handler is
produced. -/
theorem duplicate_service_id_build_error (s1 s2 : GoService)
    (h1 : s1.isPointer = true) (h2 : s2.isPointer = true)
    (hid : resolveID s1 = resolveID s2) :
    Registry.Build { services := [s1, s2] } = Except.error (dupIdError (resolveID s2)) := by
  simp [Registry.Build, buildAux, buildService, h1, h2, assocFind, hid]

/-- C6 witness: two concrete services whose Metadata IDs are both "same"
fail to build with the duplicate-ID error. -/
theorem duplicate_service_id_build_error_witness :
    Registry.Build { services := [dupA, dupB] } = Except.error (dupIdError "same") :=
  duplicate_service_id_build_error dupA dupB rfl rfl rfl

/-- C7: building a registry with the example service (Metadata ID
"example", operation Foo(ctx, fooInput) returning "hello " + bar) succeeds
and Call(ctx, "example", "Foo", obj bar := "testing") returns the
JSON-encoded string "hello testing" with no error. -/
theorem call_example_foo_hello_testing :
    buildOk exampleRegistry = true ∧
    buildCall exampleRegistry "example" "Foo" (JValue.obj [("bar", JValue.str "testing")]) =
      Except.ok "\"hello testing\"" :=
  ⟨rfl, rfl⟩

/-- C8: the ResponseCode stringer maps the stable ordinals OK=0,
BadRequest=1, NotFound=2, Unauthorized=3, ServerError=4 to their fixed
names, and renders every ordinal n at least 5 as the tagged string
ResponseCode(n) instead of failing. -/
theorem response_code_string_spec :
    CodeOK = 0 ∧ CodeBadRequest = 1 ∧ CodeNotFound = 2 ∧ CodeUnauthorized = 3 ∧
    CodeServerError = 4 ∧
    ResponseCodeString CodeOK = "CodeOK" ∧
    ResponseCodeString CodeBadRequest = "CodeBadRequest" ∧
    ResponseCodeString CodeNotFound = "CodeNotFound" ∧
    ResponseCodeString CodeUnauthorized = "CodeUnauthorized" ∧
    ResponseCodeString CodeServerError = "CodeServerError" ∧
    ∀ n : Nat, 5 ≤ n → ResponseCodeString n = "ResponseCode(" ++ toString n ++ ")" := by
  refine ⟨rfl, rfl, rfl, rfl, rfl, by decide, by decide, by decide, by decide, by decide, ?_⟩
  intro n hn
  have h5 : ResponseCodeIndex.length - 1 ≤ n := by
    simpa [ResponseCodeIndex] using hn
  unfold ResponseCodeString
  rw [if_pos h5]

/-- C8 witness: the out-of-range ordinal 7 renders as ResponseCode(7). -/
theorem response_code_string_spec_witness : ResponseCodeString 7 = "ResponseCode(7)" := by
  have h := response_code_string_spec.2.2.2.2.2.2.2.2.2.2 7 (by decide)
  rw [h]
  decide

/-- C9: with no TLSConfig override and an empty ServerName on the shared
default, getTLSConfig writes the hostname parsed from the dial address
into the package-level DefaultTLSConfig value (the returned config is that
same shared value), the default is not left unchanged when the hostname is
nonempty, and the derived ServerName persists: a later call with any other
address sees the already-populated ServerName and leaves it as is. -/
theorem getTLSConfig_mutates_shared_default (d : TLSConfig) (addr : String)
    (hempty : d.serverName = "") :
    (getTLSConfig none d addr).1 = (getTLSConfig none d addr).2 ∧
    (getTLSConfig none d addr).2.serverName = urlHostname addr ∧
    (urlHostname addr ≠ "" →
      (getTLSConfig none d addr).2 ≠ d ∧
      ∀ addr2, getTLSConfig none (getTLSConfig none d addr).2 addr2 =
        ((getTLSConfig none d addr).2, (getTLSConfig none d addr).2)) := by
  refine ⟨?_, ?_, ?_⟩
  · simp [getTLSConfig, hempty]
  · simp [getTLSConfig, hempty]
  · intro hne
    constructor
    · intro heq
      have hs := congrArg TLSConfig.serverName heq
      simp [getTLSConfig, hempty] at hs
      exact hne hs
    · intro addr2
      simp [getTLSConfig, hempty, hne]

/-- C9 witness: dialing https://relay.example.com:4443 with the pristine
DefaultTLSConfig stores ServerName "relay.example.com" into the shared
default, changing it, and a later call for a different address keeps it. -/
theorem getTLSConfig_mutates_shared_default_witness :
    (getTLSConfig none DefaultTLSConfig "https://relay.example.com:4443").2.serverName =
      urlHostname "https://relay.example.com:4443" ∧
    (getTLSConfig none DefaultTLSConfig "https://relay.example.com:4443").2 ≠ DefaultTLSConfig ∧
    getTLSConfig none (getTLSConfig none DefaultTLSConfig "https://relay.example.com:4443").2
        "https://second.example.org:9000" =
      ((getTLSConfig none DefaultTLSConfig "https://relay.example.com:4443").2,
       (getTLSConfig none DefaultTLSConfig "https://relay.example.com:4443").2) := by
  have h := getTLSConfig_mutates_shared_default DefaultTLSConfig
    "https://relay.example.com:4443" rfl
  have hne : urlHostname "https://relay.example.com:4443" ≠ "" := by decide
  exact ⟨h.2.1, (h.2.2 hne).1, (h.2.2 hne).2 "https://second.example.org:9000"⟩

/-! ## Build-loop lemmas for the routing/definitions correspondence -/

lemma processMethods_ids (meta : ServiceMetadata) (ms : List GoMethod) :
    ((processMethods meta ms).1).map Prod.fst = ((processMethods meta ms).2.1).map Operation.id := by
  induction ms with
  | nil => rfl
  | cons m rest ih =>
      by_cases hm : m.name = "Metadata" <;> simp [processMethods, hm, ih]

lemma processMethods_mem_route (meta : ServiceMetadata) (ms : List GoMethod) (m : GoMethod)
    (hm : m ∈ ms) (hname : m.name ≠ "Metadata") :
    m.name ∈ ((processMethods meta ms).1).map Prod.fst := by
  induction ms with
  | nil => cases hm
  | cons m0 rest ih =>
      rcases List.mem_cons.mp hm with h | h
      · subst h
        simp [processMethods, hname]
      · by_cases h0 : m0.name = "Metadata" <;> simp [processMethods, h0, ih h]

lemma processMethods_log_mem (meta : ServiceMetadata) (ms : List GoMethod) (m : GoMethod)
    (t : GoType) (ps : List ParamType) (hm : m ∈ ms) (hname : m.name ≠ "Metadata")
    (hp : m.params = ParamType.other t :: ps) :
    ("error extracting method: " ++ ("first arg was not context.Context, got *" ++ t.name)) ∈
      (processMethods meta ms).2.2 := by
  induction ms with
  | nil => cases hm
  | cons m0 rest ih =>
      rcases List.mem_cons.mp hm with h | h
      · subst h
        simp [processMethods, hname, hp, extractMethods, errLog]
      · by_cases h0 : m0.name = "Metadata" <;> simp [processMethods, h0, ih h]

lemma processMethods_no_metadata (meta : ServiceMetadata) (ms : List GoMethod) :
    "Metadata" ∉ ((processMethods meta ms).1).map Prod.fst := by
  induction ms with
  | nil => simp [processMethods]
  | cons m rest ih =>
      by_cases hm : m.name = "Metadata" <;>
        simp [processMethods, hm, ih]
      exact fun h => hm h.symm

lemma build_singleton (svc : GoService) (hp : svc.isPointer = true) :
    Registry.Build { services := [svc] } =
      Except.ok
        ({ routes := [(resolveID svc, (processMethods (metaOf svc) svc.methods).1)],
           defs := { services :=
             [{ sdefBase svc with
                  operations := (processMethods (metaOf svc) svc.methods).2.1 }] } },
         (processMethods (metaOf svc) svc.methods).2.2) := by
  simp [Registry.Build, buildAux, buildService, hp, assocFind]

lemma pairs_tag (rid : String) (l : List (String × function)) (ops : List Operation)
    (hids : l.map Prod.fst = ops.map Operation.id) :
    l.map (fun q => (rid, q.1)) = ops.map (fun o => (rid, o.id)) := by
  have h1 : l.map (fun q => (rid, q.1)) = (l.map Prod.fst).map (fun n => (rid, n)) := by
    simp [List.map_map]
  rw [h1, hids, List.map_map]
  rfl

lemma buildService_ok_pairs (h : Handler) (logs : List String) (svc : GoService)
    (h2 : Handler) (logs2 : List String)
    (heq : buildService h logs svc = Except.ok (h2, logs2)) :
    routePairs h2 = routePairs h ++
      ((processMethods (metaOf svc) svc.methods).1).map (fun q => (resolveID svc, q.1)) ∧
    defPairs h2 = defPairs h ++
      ((processMethods (metaOf svc) svc.methods).2.1).map (fun o => (resolveID svc, o.id)) := by
  by_cases hp : svc.isPointer = false
  · simp [buildService, hp] at heq
  · by_cases hdup : (assocFind h.routes (resolveID svc)).isSome
    · simp [buildService, hp, hdup] at heq
    · simp [buildService, hp, hdup] at heq
      obtain ⟨hh, -⟩ := heq
      subst hh
      constructor
      · simp [routePairs, List.flatMap_append, resolveID]
      · simp [defPairs, List.flatMap_append, resolveID]

lemma buildAux_pairs_inv (svcs : List GoService) :
    ∀ (h : Handler) (logs : List String) (h2 : Handler) (logs2 : List String),
    routePairs h = defPairs h →
    buildAux h logs svcs = Except.ok (h2, logs2) →
    routePairs h2 = defPairs h2 := by
  induction svcs with
  | nil =>
      intro h logs h2 logs2 hinv heq
      simp [buildAux] at heq
      obtain ⟨h1, -⟩ := heq
      rw [← h1]
      exact hinv
  | cons svc rest ih =>
      intro h logs h2 logs2 hinv heq
      rw [buildAux] at heq
      cases hbs : buildService h logs svc with
      | error e => rw [hbs] at heq; cases heq
      | ok p =>
          rw [hbs] at heq
          obtain ⟨hmid, lmid⟩ := p
          have hps := buildService_ok_pairs h logs svc hmid lmid hbs
          have hmidinv : routePairs hmid = defPairs hmid := by
            rw [hps.1, hps.2, hinv,
              pairs_tag (resolveID svc) _ _ (processMethods_ids (metaOf svc) svc.methods)]
          exact ih hmid lmid h2 logs2 hmidinv heq

lemma buildAux_no_metadata (svcs : List GoService) :
    ∀ (h : Handler) (logs : List String) (h2 : Handler) (logs2 : List String) (sid : String),
    (sid, "Metadata") ∉ routePairs h →
    buildAux h logs svcs = Except.ok (h2, logs2) →
    (sid, "Metadata") ∉ routePairs h2 := by
  induction svcs with
  | nil =>
      intro h logs h2 logs2 sid hnot heq
      simp [buildAux] at heq
      obtain ⟨h1, -⟩ := heq
      rw [← h1]
      exact hnot
  | cons svc rest ih =>
      intro h logs h2 logs2 sid hnot heq
      rw [buildAux] at heq
      cases hbs : buildService h logs svc with
      | error e => rw [hbs] at heq; cases heq
      | ok p =>
          rw [hbs] at heq
          obtain ⟨hmid, lmid⟩ := p
          have hps := buildService_ok_pairs h logs svc hmid lmid hbs
          have hmidnot : (sid, "Metadata") ∉ routePairs hmid := by
            rw [hps.1]
            intro hmem
            rcases List.mem_append.mp hmem with hleft | hright
            · exact hnot hleft
            · obtain ⟨q, hq, hq1⟩ := List.mem_map.mp hright
              have : q.1 = "Metadata" := congrArg Prod.snd hq1
              exact processMethods_no_metadata (metaOf svc) svc.methods
                (List.mem_map.mpr ⟨q, hq, this⟩)
          exact ih hmid lmid h2 logs2 sid hmidnot heq

/-- C1 counterexample: an operation whose first parameter is not a context
is NOT excluded from the routing table or the Definitions document.  The
claim, instantiated at badService (whose only method BadOp takes a bare
int), fails: the error is logged, but ("bad","BadOp") is present in both
the routing table and the Definitions document. -/
theorem noncontext_method_excluded_refuted :
    ¬ (∀ (svc : GoService) (m : GoMethod) (t : GoType) (ps : List ParamType),
        svc.isPointer = true → m ∈ svc.methods → m.name ≠ "Metadata" →
        m.params = ParamType.other t :: ps →
        (buildLogs { services := [svc] } ≠ [] ∧
         (resolveID svc, m.name) ∉ buildRoutePairs { services := [svc] } ∧
         (resolveID svc, m.name) ∉ buildDefPairs { services := [svc] })) := by
  intro hclaim
  have h := hclaim badService badMethod intType [] rfl (List.Mem.head _) (by decide) rfl
  exact h.2.1 (by decide)

/-- C1 amended: for a registered (pointer) service with an exported method
(not named Metadata) whose first parameter is not a context, Build logs an
error but the operation is still included in both the RoutingTable and the
Definitions document (the Service entry exists, and the operation carries
no request-body schema). -/
theorem noncontext_method_logged_and_still_routed (svc : GoService) (m : GoMethod)
    (t : GoType) (ps : List ParamType) (hp : svc.isPointer = true) (hm : m ∈ svc.methods)
    (hname : m.name ≠ "Metadata") (hparams : m.params = ParamType.other t :: ps) :
    (resolveID svc, m.name) ∈ buildRoutePairs { services := [svc] } ∧
    (resolveID svc, m.name) ∈ buildDefPairs { services := [svc] } ∧
    buildLogs { services := [svc] } ≠ [] := by
  have hb := build_singleton svc hp
  have hroute := processMethods_mem_route (metaOf svc) svc.methods m hm hname
  have hlog := processMethods_log_mem (metaOf svc) svc.methods m t ps hm hname hparams
  have hdefmem : m.name ∈ ((processMethods (metaOf svc) svc.methods).2.1).map Operation.id := by
    rw [← processMethods_ids (metaOf svc) svc.methods]
    exact hroute
  obtain ⟨q, hq, hq1⟩ := List.mem_map.mp hroute
  obtain ⟨o, ho, ho1⟩ := List.mem_map.mp hdefmem
  refine ⟨?_, ?_, ?_⟩
  · simp only [buildRoutePairs, hb, routePairs, List.flatMap_cons, List.flatMap_nil,
      List.append_nil]
    exact List.mem_map.mpr ⟨q, hq, by simp [hq1]⟩
  · simp only [buildDefPairs, hb, defPairs, List.flatMap_cons, List.flatMap_nil,
      List.append_nil]
    exact List.mem_map.mpr ⟨o, ho, by simp [ho1, resolveID]⟩
  · simp [buildLogs, hb]
    exact List.ne_nil_of_mem hlog

/-- C1 amended witness: badService's BadOp method is routed, documented
and its extraction error is logged. -/
theorem noncontext_method_logged_and_still_routed_witness :
    (resolveID badService, badMethod.name) ∈ buildRoutePairs { services := [badService] } ∧
    (resolveID badService, badMethod.name) ∈ buildDefPairs { services := [badService] } ∧
    buildLogs { services := [badService] } ≠ [] :=
  noncontext_method_logged_and_still_routed badService badMethod intType [] rfl
    (List.Mem.head _) (by decide) rfl

/-- C2 counterexample: Build does NOT return an error for a service with a
method lacking a context first parameter.  The claim, instantiated at
badService, fails: Build succeeds and produces a Handler. -/
theorem noncontext_method_fatal_refuted :
    ¬ (∀ (svc : GoService) (m : GoMethod) (t : GoType) (ps : List ParamType),
        svc.isPointer = true → m ∈ svc.methods → m.params = ParamType.other t :: ps →
        buildOk { services := [svc] } = false) := by
  intro hclaim
  have h := hclaim badService badMethod intType [] rfl (List.Mem.head _) rfl
  exact absurd h (by decide)

/-- C2 amended: for a registered (pointer) service with an exported method
(not named Metadata) whose first parameter is not a context, Build does
not fail: it returns a Handler, and the signature error ("first arg was
not context.Context, got %T") is only recorded in the log. -/
theorem noncontext_method_error_only_logged (svc : GoService) (m : GoMethod)
    (t : GoType) (ps : List ParamType) (hp : svc.isPointer = true) (hm : m ∈ svc.methods)
    (hname : m.name ≠ "Metadata") (hparams : m.params = ParamType.other t :: ps) :
    buildOk { services := [svc] } = true ∧
    ("error extracting method: " ++ ("first arg was not context.Context, got *" ++ t.name)) ∈
      buildLogs { services := [svc] } := by
  have hb := build_singleton svc hp
  constructor
  · simp [buildOk, hb]
  · simpa [buildLogs, hb] using
      processMethods_log_mem (metaOf svc) svc.methods m t ps hm hname hparams

/-- C2 amended witness: building badService succeeds and logs the
signature error for its int-typed first parameter. -/
theorem noncontext_method_error_only_logged_witness :
    buildOk { services := [badService] } = true ∧
    ("error extracting method: " ++ ("first arg was not context.Context, got *" ++ intType.name)) ∈
      buildLogs { services := [badService] } :=
  noncontext_method_error_only_logged badService badMethod intType [] rfl
    (List.Mem.head _) (by decide) rfl

/-- C5: whenever Build succeeds, the (service ID, operation ID) pairs of
the Definitions document are exactly the keys of the compiled routing
table (equal as ordered lists, both built in the same pass). -/
theorem build_definitions_match_routes (r : Registry) (hok : buildOk r = true) :
    buildRoutePairs r = buildDefPairs r := by
  cases hb : r.Build with
  | error e => simp [buildOk, hb] at hok
  | ok p =>
      obtain ⟨h, logs⟩ := p
      have hb2 : buildAux { routes := [], defs := { services := [] } } [] r.services =
          Except.ok (h, logs) := hb
      have hinv := buildAux_pairs_inv r.services
        { routes := [], defs := { services := [] } } [] h logs rfl hb2
      simp [buildRoutePairs, buildDefPairs, hb, hinv]

/-- C5 witness: the example registry builds and its route pairs equal its
definitions pairs. -/
theorem build_definitions_match_routes_witness :
    buildRoutePairs exampleRegistry = buildDefPairs exampleRegistry :=
  build_definitions_match_routes exampleRegistry rfl

/-- C10: no compiled routing table or Definitions document ever contains
an operation with ID "Metadata", for any registry (whether or not the
service object implements the metadata capability): the method named
Metadata is always skipped by Build. -/
theorem metadata_method_never_routed (r : Registry) (sid : String) :
    (sid, "Metadata") ∉ buildRoutePairs r ∧ (sid, "Metadata") ∉ buildDefPairs r := by
  cases hb : r.Build with
  | error e => simp [buildRoutePairs, buildDefPairs, hb]
  | ok p =>
      obtain ⟨h, logs⟩ := p
      have hb2 : buildAux { routes := [], defs := { services := [] } } [] r.services =
          Except.ok (h, logs) := hb
      have hroute := buildAux_no_metadata r.services
        { routes := [], defs := { services := [] } } [] h logs sid (by simp [routePairs]) hb2
      have hinv := buildAux_pairs_inv r.services
        { routes := [], defs := { services := [] } } [] h logs rfl hb2
      constructor
      · simpa [buildRoutePairs, hb] using hroute
      · simpa [buildDefPairs, hb, ← hinv] using hroute
